import Mathlib

/-!
Shallow embedding of `ioos_catalog/models/ping_latest.py` (class `PingLatest`):
the rolling weekly ping window, its gap-filling recorder `set_ping_data`, the
probe classification and flip detection of `ping_service`, and the
chronological rotation of `get_current_data`.

Timestamps are modelled as natural numbers counting minutes since an epoch
that falls on a Monday at 00:00 UTC, so that `datetime.weekday()` is
`(t / 1440) % 7` (Monday = 0) and `datetime.hour` is `(t / 60) % 24`, and
`timedelta(hours=1)` is `+ 60`.  Comparisons between datetimes become
comparisons between naturals.  Optional values (`None` in Python, missing
Mongo fields) are modelled with `Option`.
-/

namespace Catalog

/-- `datetime.weekday()`: Monday = 0, ..., Sunday = 6. -/
def weekday (dt : Nat) : Nat := dt / 1440 % 7

/-- `datetime.hour`: hour of day, 0..23. -/
def hourOfDay (dt : Nat) : Nat := dt / 60 % 24

/-- The slot index of a (non-null) timestamp: `weekday * 24 + hour`,
as computed in `PingLatest.get_index`. -/
def getIndex (dt : Nat) : Nat := weekday dt * 24 + hourOfDay dt

/-- `PingLatest.get_index`: returns `None` for a `None` timestamp,
otherwise `weekday*24 + hour`. -/
def get_index (dt : Option Nat) : Option Nat := dt.map getIndex

/-- The mutable state of one `PingLatest` document.  The three arrays are the
168-slot rolling week; scalar fields mirror the Mongo structure.  A field that
was never assigned is `none` (schemaless document). -/
structure PingLatest where
  last_response_time      : Option Int
  last_response_code      : Option Int
  last_operational_status : Option Bool
  last_good_time          : Option Nat
  response_times          : List (Option Int)
  response_codes          : List (Option Int)
  operational_statuses    : List (Option Bool)
  updated                 : Option Nat
deriving Repr, DecidableEq

/-- A fresh record as built by `default_values`: all slots absent, no
`updated`, no latest fields. -/
def defaultPingLatest : PingLatest where
  last_response_time      := none
  last_response_code      := none
  last_operational_status := none
  last_good_time          := none
  response_times          := List.replicate 168 none
  response_codes          := List.replicate 168 none
  operational_statuses    := List.replicate 168 none
  updated                 := none

/-- Body of the gap-filling while loop: null the triple at slot `idx` in all
three arrays. -/
def nullSlot (r : PingLatest) (idx : Nat) : PingLatest :=
  { r with
    response_times       := r.response_times.set idx none
    response_codes       := r.response_codes.set idx none
    operational_statuses := r.operational_statuses.set idx none }

/-- The sequence of loop-counter values of the while loop
`while start_dt < dt: ...; start_dt += timedelta(hours=1)`.
The loop advances `start_dt` by 60 minutes per iteration and stops as soon as
`start_dt < dt` fails, so it runs at most `dt - start_dt` iterations; the
fuel argument makes the recursion structural while never cutting the loop
short. -/
def gapStepsAux : Nat → Nat → Nat → List Nat
  | 0, _, _ => []
  | fuel + 1, start_dt, dt =>
    if start_dt < dt then start_dt :: gapStepsAux fuel (start_dt + 60) dt else []

/-- All loop-counter values visited by the gap-filling while loop started at
`start_dt` with bound `dt`. -/
def gapSteps (start_dt dt : Nat) : List Nat :=
  gapStepsAux (dt - start_dt) start_dt dt

/-- Run the gap-filling loop body over a list of stepped timestamps. -/
def fillGaps (r : PingLatest) (ts : List Nat) : PingLatest :=
  ts.foldl (fun acc t => nullSlot acc (getIndex t)) r

/-- The tail of `set_ping_data` (after the gap-filling loop): set `updated`
and the latest fields, set `last_good_time` when operational, and write the
sample triple into slot `get_index(dt)`. -/
def recordSample (r : PingLatest) (dt : Nat) (response_time : Option Int)
    (response_code : Int) (operational_status : Bool) : PingLatest × Option Nat :=
  let idx := getIndex dt
  ({ r with
     updated                 := some dt
     last_response_time      := response_time
     last_response_code      := some response_code
     last_operational_status := some operational_status
     last_good_time          := if operational_status then some dt else r.last_good_time
     response_times          := r.response_times.set idx response_time
     response_codes          := r.response_codes.set idx (some response_code)
     operational_statuses    := r.operational_statuses.set idx (some operational_status) },
   some idx)

/-- `PingLatest.set_ping_data`.  Returns the new record state together with
the written slot index, or `none` when the sample is dropped because
`self.updated > dt` (the code prints a badness message and returns without mutating
anything). -/
def set_ping_data (r : PingLatest) (dt : Nat) (response_time : Option Int)
    (response_code : Int) (operational_status : Bool) : PingLatest × Option Nat :=
  match r.updated with
  | some start_dt =>
    if start_dt > dt then
      (r, none)
    else
      recordSample (fillGaps r (gapSteps (start_dt + 60) dt)) dt
        response_time response_code operational_status
  | none => recordSample r dt response_time response_code operational_status

/-- Outcome of `s.ping(timeout=15)`: either a response time and code, or one
of the caught exceptions (`requests.ConnectionError`, `requests.HTTPError`,
`requests.Timeout`). -/
inductive ProbeResult where
  | success (response_time : Int) (response_code : Int)
  | failure
deriving Repr, DecidableEq

/-- The try/except block of `ping_service`: classify the probe outcome into
`(response_time, response_code, operational_status)`.  A successful probe is
operational iff the code is in `[200, 400]`; a caught exception becomes
`(None, -1, False)`. -/
def classifyProbe : ProbeResult → Option Int × Int × Bool
  | .success t c => (some t, c, c == 200 || c == 400)
  | .failure => (none, -1, false)

/-- Truthiness of `last and (last != operational_status)` where `last` is the
previous `last_operational_status` (possibly `None`). -/
def flipped (last : Option Bool) (operational_status : Bool) : Bool :=
  match last with
  | none => false
  | some b => b && (b != operational_status)

/-- `PingLatest.ping_service`, with the external probe outcome and the wall
clock `datetime.utcnow()` passed as arguments.  Returns the mutated record
together with the 2-tuple `(last_idx != idx, last and (last != operational_status))`. -/
def ping_service (r : PingLatest) (probe : ProbeResult) (now : Nat) :
    PingLatest × Bool × Bool :=
  let last := r.last_operational_status
  let last_idx := get_index r.updated
  let cls := classifyProbe probe
  let res := set_ping_data r now cls.1 cls.2.1 cls.2.2
  (res.1, decide (last_idx ≠ res.2), flipped last cls.2.2)

/-- `PingLatest.get_current_data`, with the wall clock `datetime.utcnow()`
passed as an argument.  Python slices `l[a:168]` and `l[0:a]` become
`(l.take 168).drop a` and `l.take a`. -/
def get_current_data (r : PingLatest) (now : Nat) :
    List (Option Int) × List (Option Bool) :=
  let idx := getIndex now
  if idx == 167 then
    (r.response_times, r.operational_statuses)
  else
    let start_idx := idx + 1
    ((r.response_times.take 168).drop start_idx ++ r.response_times.take start_idx,
     (r.operational_statuses.take 168).drop start_idx ++ r.operational_statuses.take start_idx)

/-- Apply a sequence of `set_ping_data` calls (timestamp, response time,
response code, operational flag) to a record, keeping only the states. -/
def runSamples (r : PingLatest) (samples : List (Nat × Option Int × Int × Bool)) : PingLatest :=
  samples.foldl (fun acc s => (set_ping_data acc s.1 s.2.1 s.2.2.1 s.2.2.2).1) r

/-- One slot triple is all-present or all-absent. -/
def tripleOk (a : Option Int) (b : Option Int) (c : Option Bool) : Bool :=
  (a.isSome && b.isSome && c.isSome) || (a.isNone && b.isNone && c.isNone)

/-- The spec invariant: at every index the triple
`(response_times[i], response_codes[i], operational_statuses[i])` is
all-absent or all-present. -/
def tripleInv (r : PingLatest) : Prop :=
  ∀ i, i < 168 →
    tripleOk ((r.response_times[i]?).getD none) ((r.response_codes[i]?).getD none)
      ((r.operational_statuses[i]?).getD none) = true

/-- One slot satisfies the weaker invariant that the code maintains: the
response code and operational status are present together, and a present
response time forces a present response code. -/
def pairOk (a : Option Int) (b : Option Int) (c : Option Bool) : Bool :=
  (b.isSome == c.isSome) && (!a.isSome || b.isSome)

/-- The weaker per-slot invariant that `set_ping_data` does maintain. -/
def pairInv (r : PingLatest) : Prop :=
  ∀ i, i < 168 →
    pairOk ((r.response_times[i]?).getD none) ((r.response_codes[i]?).getD none)
      ((r.operational_statuses[i]?).getD none) = true

instance (r : PingLatest) : Decidable (tripleInv r) := by
  unfold tripleInv
  exact inferInstance

instance (r : PingLatest) : Decidable (pairInv r) := by
  unfold pairInv
  exact inferInstance

/-- A fresh record whose `updated` field is set to `u` (used for concrete
instances). -/
def recUpdatedAt (u : Nat) : PingLatest := { defaultPingLatest with updated := some u }

/-- A record that was updated at minute 300 while operational (used for
concrete instances of the stale-sample path). -/
def staleRecord : PingLatest :=
  { defaultPingLatest with updated := some 300, last_operational_status := some true }

/-! ### Helper lemmas about slot indexing -/

theorem getIndex_eq (dt : Nat) : getIndex dt = dt / 60 % 168 := by
  have h24 : dt / 1440 = dt / 60 / 24 := by
    rw [Nat.div_div_eq_div_mul]
  unfold getIndex weekday hourOfDay
  rw [h24]
  omega

theorem getIndex_lt (dt : Nat) : getIndex dt < 168 := by
  rw [getIndex_eq]
  omega

/-! ### Helper lemmas about the gap-stepping loop -/

theorem mem_gapStepsAux {dt t : Nat} :
    ∀ (fuel : Nat) (s : Nat), t ∈ gapStepsAux fuel s dt →
      ∃ k, t = s + 60 * k ∧ t < dt := by
  intro fuel
  induction fuel with
  | zero => intro s h; simp [gapStepsAux] at h
  | succ f ih =>
    intro s h
    by_cases hlt : s < dt
    · simp only [gapStepsAux, if_pos hlt] at h
      cases h with
      | head => exact ⟨0, by omega, hlt⟩
      | tail _ h2 =>
        obtain ⟨k, hk, h3⟩ := ih (s + 60) h2
        exact ⟨k + 1, by omega, h3⟩
    · simp [gapStepsAux, if_neg hlt] at h

theorem gapStepsAux_mem {dt : Nat} :
    ∀ (k fuel : Nat) (s : Nat), s + 60 * k < dt → dt - s ≤ fuel →
      s + 60 * k ∈ gapStepsAux fuel s dt := by
  intro k
  induction k with
  | zero =>
    intro fuel s hlt hfuel
    match fuel with
    | 0 => omega
    | f + 1 =>
      simp only [gapStepsAux]
      rw [if_pos (by omega)]
      have he : s + 60 * 0 = s := by omega
      rw [he]
      exact List.mem_cons_self s _
  | succ k ih =>
    intro fuel s hlt hfuel
    match fuel with
    | 0 => omega
    | f + 1 =>
      simp only [gapStepsAux]
      rw [if_pos (by omega)]
      apply List.mem_cons_of_mem
      have he : s + 60 * (k + 1) = s + 60 + 60 * k := by omega
      rw [he]
      exact ih f (s + 60) (by omega) (by omega)

theorem length_gapStepsAux {dt : Nat} :
    ∀ (fuel : Nat) (s : Nat), dt - s ≤ fuel →
      (gapStepsAux fuel s dt).length = (dt - s + 59) / 60 := by
  intro fuel
  induction fuel with
  | zero =>
    intro s h
    simp only [gapStepsAux, List.length_nil]
    omega
  | succ f ih =>
    intro s h
    by_cases hlt : s < dt
    · simp only [gapStepsAux, if_pos hlt, List.length_cons]
      rw [ih (s + 60) (by omega)]
      omega
    · simp only [gapStepsAux, if_neg hlt, List.length_nil]
      omega

theorem mem_gapSteps {s dt t : Nat} :
    t ∈ gapSteps s dt ↔ ∃ k, t = s + 60 * k ∧ t < dt := by
  constructor
  · exact mem_gapStepsAux (dt - s) s
  · rintro ⟨k, rfl, hlt⟩
    exact gapStepsAux_mem k (dt - s) s hlt (Nat.le_refl _)

theorem length_gapSteps (s dt : Nat) :
    (gapSteps s dt).length = (dt - s + 59) / 60 :=
  length_gapStepsAux (dt - s) s (Nat.le_refl _)

/-! ### Helper lemmas about folded slot-nulling -/

theorem foldl_set_none_length {α : Type} (is : List Nat) (l : List (Option α)) :
    (is.foldl (fun acc i => acc.set i none) l).length = l.length := by
  induction is generalizing l with
  | nil => rfl
  | cons i is ih => simp only [List.foldl_cons, ih, List.length_set]

theorem foldl_set_none_getElem_of_not_mem {α : Type} {is : List Nat}
    {l : List (Option α)} {j : Nat} (h : j ∉ is) :
    (is.foldl (fun acc i => acc.set i none) l)[j]? = l[j]? := by
  induction is generalizing l with
  | nil => rfl
  | cons i is ih =>
    have hne : j ≠ i := fun he => h (List.mem_cons.mpr (Or.inl he))
    have hnm : j ∉ is := fun hm => h (List.mem_cons.mpr (Or.inr hm))
    simp only [List.foldl_cons]
    rw [ih hnm, List.getElem?_set_ne (Ne.symm hne)]

theorem foldl_set_none_getElem_of_mem {α : Type} {is : List Nat}
    {l : List (Option α)} {j : Nat} (h : j ∈ is) (hj : j < l.length) :
    (is.foldl (fun acc i => acc.set i none) l)[j]? = some none := by
  induction is generalizing l with
  | nil => cases h
  | cons i is ih =>
    simp only [List.foldl_cons]
    by_cases hmem : j ∈ is
    · exact ih hmem (by rw [List.length_set]; exact hj)
    · have hji : j = i := by
        rcases List.mem_cons.mp h with h1 | h2
        · exact h1
        · exact absurd h2 hmem
      subst hji
      rw [foldl_set_none_getElem_of_not_mem hmem,
        List.getElem?_set_self hj]

theorem fillGaps_response_times (ts : List Nat) :
    ∀ r : PingLatest, (fillGaps r ts).response_times
      = (ts.map getIndex).foldl (fun l i => l.set i none) r.response_times := by
  induction ts with
  | nil => intro r; rfl
  | cons t ts ih =>
    intro r
    show (fillGaps (nullSlot r (getIndex t)) ts).response_times = _
    rw [ih]
    rfl

theorem fillGaps_response_codes (ts : List Nat) :
    ∀ r : PingLatest, (fillGaps r ts).response_codes
      = (ts.map getIndex).foldl (fun l i => l.set i none) r.response_codes := by
  induction ts with
  | nil => intro r; rfl
  | cons t ts ih =>
    intro r
    show (fillGaps (nullSlot r (getIndex t)) ts).response_codes = _
    rw [ih]
    rfl

theorem fillGaps_operational_statuses (ts : List Nat) :
    ∀ r : PingLatest, (fillGaps r ts).operational_statuses
      = (ts.map getIndex).foldl (fun l i => l.set i none) r.operational_statuses := by
  induction ts with
  | nil => intro r; rfl
  | cons t ts ih =>
    intro r
    show (fillGaps (nullSlot r (getIndex t)) ts).operational_statuses = _
    rw [ih]
    rfl

theorem fillGaps_updated (ts : List Nat) :
    ∀ r : PingLatest, (fillGaps r ts).updated = r.updated := by
  induction ts with
  | nil => intro r; rfl
  | cons t ts ih =>
    intro r
    exact ih (nullSlot r (getIndex t))

theorem fillGaps_last_good_time (ts : List Nat) :
    ∀ r : PingLatest, (fillGaps r ts).last_good_time = r.last_good_time := by
  induction ts with
  | nil => intro r; rfl
  | cons t ts ih =>
    intro r
    exact ih (nullSlot r (getIndex t))

theorem fillGaps_length_response_times (ts : List Nat) (r : PingLatest) :
    (fillGaps r ts).response_times.length = r.response_times.length := by
  rw [fillGaps_response_times]
  exact foldl_set_none_length _ _

theorem fillGaps_length_response_codes (ts : List Nat) (r : PingLatest) :
    (fillGaps r ts).response_codes.length = r.response_codes.length := by
  rw [fillGaps_response_codes]
  exact foldl_set_none_length _ _

theorem fillGaps_length_operational_statuses (ts : List Nat) (r : PingLatest) :
    (fillGaps r ts).operational_statuses.length = r.operational_statuses.length := by
  rw [fillGaps_operational_statuses]
  exact foldl_set_none_length _ _

/-- When the sample is accepted (`updated` is `some u` with `u ≤ dt`),
`set_ping_data` is the gap-filling fold followed by the sample write. -/
theorem set_ping_data_accepted (r : PingLatest) (u dt : Nat) (rt : Option Int)
    (rc : Int) (op : Bool) (hu : r.updated = some u) (hle : u ≤ dt) :
    set_ping_data r dt rt rc op
      = recordSample (fillGaps r (gapSteps (u + 60) dt)) dt rt rc op := by
  simp only [set_ping_data, hu]
  rw [if_neg (by omega)]

/-- A single `set_ping_data` call never decreases a set `updated` field. -/
theorem set_ping_data_updated_mono (r : PingLatest) (u dt : Nat) (rt : Option Int)
    (rc : Int) (op : Bool) (hu : r.updated = some u) :
    ∃ u2, (set_ping_data r dt rt rc op).1.updated = some u2 ∧ u ≤ u2 := by
  by_cases hgt : u > dt
  · refine ⟨u, ?_, Nat.le_refl u⟩
    simp only [set_ping_data, hu]
    rw [if_pos hgt]
    exact hu
  · refine ⟨dt, ?_, by omega⟩
    rw [set_ping_data_accepted r u dt rt rc op hu (by omega)]
    rfl

theorem runSamples_updated_mono :
    ∀ (samples : List (Nat × Option Int × Int × Bool)) (r : PingLatest) (u : Nat),
      r.updated = some u →
      ∃ u2, (runSamples r samples).updated = some u2 ∧ u ≤ u2 := by
  intro samples
  induction samples with
  | nil => intro r u hu; exact ⟨u, hu, Nat.le_refl u⟩
  | cons s ss ih =>
    intro r u hu
    obtain ⟨u1, h1, hle1⟩ := set_ping_data_updated_mono r u s.1 s.2.1 s.2.2.1 s.2.2.2 hu
    obtain ⟨u2, h2, hle2⟩ := ih (set_ping_data r s.1 s.2.1 s.2.2.1 s.2.2.2).1 u1 h1
    exact ⟨u2, h2, Nat.le_trans hle1 hle2⟩

/-- When `updated` is `some u` with `dt < u`, `set_ping_data` drops the
sample: no mutation, no slot index. -/
theorem set_ping_data_rejected (r : PingLatest) (u dt : Nat) (rt : Option Int)
    (rc : Int) (op : Bool) (hu : r.updated = some u) (hgt : dt < u) :
    set_ping_data r dt rt rc op = (r, none) := by
  simp only [set_ping_data, hu]
  rw [if_pos (by omega)]

/-- When `updated` was never set, `set_ping_data` skips the gap-filling walk. -/
theorem set_ping_data_fresh (r : PingLatest) (dt : Nat) (rt : Option Int)
    (rc : Int) (op : Bool) (hu : r.updated = none) :
    set_ping_data r dt rt rc op = recordSample r dt rt rc op := by
  simp only [set_ping_data, hu]

/-- Scalar fields after an accepted `set_ping_data` call. -/
theorem set_ping_data_accepted_scalars (r : PingLatest) (u dt : Nat) (rt : Option Int)
    (rc : Int) (op : Bool) (hu : r.updated = some u) (hle : u ≤ dt) :
    (set_ping_data r dt rt rc op).1.updated = some dt
    ∧ (set_ping_data r dt rt rc op).1.last_response_time = rt
    ∧ (set_ping_data r dt rt rc op).1.last_response_code = some rc
    ∧ (set_ping_data r dt rt rc op).1.last_operational_status = some op
    ∧ (set_ping_data r dt rt rc op).1.last_good_time
        = (if op then some dt else r.last_good_time) := by
  rw [set_ping_data_accepted r u dt rt rc op hu hle]
  refine ⟨rfl, rfl, rfl, rfl, ?_⟩
  show (if op then some dt else (fillGaps r (gapSteps (u + 60) dt)).last_good_time) = _
  rw [fillGaps_last_good_time]

/-- Per-index contents of `response_times` after an accepted call: the
written slot holds the sample, slots stepped over by the gap-filling walk
hold the absent marker, all other slots are untouched. -/
theorem set_ping_data_getElem_times (r : PingLatest) (u dt : Nat) (rt : Option Int)
    (rc : Int) (op : Bool) (hu : r.updated = some u) (hle : u ≤ dt)
    (hlen : r.response_times.length = 168) (j : Nat) :
    (set_ping_data r dt rt rc op).1.response_times[j]?
      = if j = getIndex dt then some rt
        else if j ∈ (gapSteps (u + 60) dt).map getIndex then some none
        else r.response_times[j]? := by
  rw [set_ping_data_accepted r u dt rt rc op hu hle]
  have harr : (recordSample (fillGaps r (gapSteps (u + 60) dt)) dt rt rc op).1.response_times
      = (fillGaps r (gapSteps (u + 60) dt)).response_times.set (getIndex dt) rt := rfl
  rw [harr]
  by_cases h1 : j = getIndex dt
  · subst h1
    rw [if_pos rfl]
    apply List.getElem?_set_self
    rw [fillGaps_length_response_times, hlen]
    exact getIndex_lt dt
  · rw [if_neg h1, List.getElem?_set_ne (fun he => h1 he.symm), fillGaps_response_times]
    by_cases h2 : j ∈ (gapSteps (u + 60) dt).map getIndex
    · rw [if_pos h2]
      apply foldl_set_none_getElem_of_mem h2
      obtain ⟨t, _, hjt⟩ := List.mem_map.mp h2
      rw [hlen, ← hjt]
      exact getIndex_lt t
    · rw [if_neg h2]
      exact foldl_set_none_getElem_of_not_mem h2

/-- Per-index contents of `response_codes` after an accepted call. -/
theorem set_ping_data_getElem_codes (r : PingLatest) (u dt : Nat) (rt : Option Int)
    (rc : Int) (op : Bool) (hu : r.updated = some u) (hle : u ≤ dt)
    (hlen : r.response_codes.length = 168) (j : Nat) :
    (set_ping_data r dt rt rc op).1.response_codes[j]?
      = if j = getIndex dt then some (some rc)
        else if j ∈ (gapSteps (u + 60) dt).map getIndex then some none
        else r.response_codes[j]? := by
  rw [set_ping_data_accepted r u dt rt rc op hu hle]
  have harr : (recordSample (fillGaps r (gapSteps (u + 60) dt)) dt rt rc op).1.response_codes
      = (fillGaps r (gapSteps (u + 60) dt)).response_codes.set (getIndex dt) (some rc) := rfl
  rw [harr]
  by_cases h1 : j = getIndex dt
  · subst h1
    rw [if_pos rfl]
    apply List.getElem?_set_self
    rw [fillGaps_length_response_codes, hlen]
    exact getIndex_lt dt
  · rw [if_neg h1, List.getElem?_set_ne (fun he => h1 he.symm), fillGaps_response_codes]
    by_cases h2 : j ∈ (gapSteps (u + 60) dt).map getIndex
    · rw [if_pos h2]
      apply foldl_set_none_getElem_of_mem h2
      obtain ⟨t, _, hjt⟩ := List.mem_map.mp h2
      rw [hlen, ← hjt]
      exact getIndex_lt t
    · rw [if_neg h2]
      exact foldl_set_none_getElem_of_not_mem h2

/-- Per-index contents of `operational_statuses` after an accepted call. -/
theorem set_ping_data_getElem_statuses (r : PingLatest) (u dt : Nat) (rt : Option Int)
    (rc : Int) (op : Bool) (hu : r.updated = some u) (hle : u ≤ dt)
    (hlen : r.operational_statuses.length = 168) (j : Nat) :
    (set_ping_data r dt rt rc op).1.operational_statuses[j]?
      = if j = getIndex dt then some (some op)
        else if j ∈ (gapSteps (u + 60) dt).map getIndex then some none
        else r.operational_statuses[j]? := by
  rw [set_ping_data_accepted r u dt rt rc op hu hle]
  have harr : (recordSample (fillGaps r (gapSteps (u + 60) dt)) dt rt rc op).1.operational_statuses
      = (fillGaps r (gapSteps (u + 60) dt)).operational_statuses.set (getIndex dt) (some op) := rfl
  rw [harr]
  by_cases h1 : j = getIndex dt
  · subst h1
    rw [if_pos rfl]
    apply List.getElem?_set_self
    rw [fillGaps_length_operational_statuses, hlen]
    exact getIndex_lt dt
  · rw [if_neg h1, List.getElem?_set_ne (fun he => h1 he.symm), fillGaps_operational_statuses]
    by_cases h2 : j ∈ (gapSteps (u + 60) dt).map getIndex
    · rw [if_pos h2]
      apply foldl_set_none_getElem_of_mem h2
      obtain ⟨t, _, hjt⟩ := List.mem_map.mp h2
      rw [hlen, ← hjt]
      exact getIndex_lt t
    · rw [if_neg h2]
      exact foldl_set_none_getElem_of_not_mem h2

/-- The slot index returned by an accepted call. -/
theorem set_ping_data_accepted_snd (r : PingLatest) (u dt : Nat) (rt : Option Int)
    (rc : Int) (op : Bool) (hu : r.updated = some u) (hle : u ≤ dt) :
    (set_ping_data r dt rt rc op).2 = some (getIndex dt) := by
  rw [set_ping_data_accepted r u dt rt rc op hu hle]
  rfl

theorem defaultPingLatest_length_response_times :
    defaultPingLatest.response_times.length = 168 := by
  rw [show defaultPingLatest.response_times = List.replicate 168 none from rfl,
    List.length_replicate]

theorem defaultPingLatest_length_response_codes :
    defaultPingLatest.response_codes.length = 168 := by
  rw [show defaultPingLatest.response_codes = List.replicate 168 none from rfl,
    List.length_replicate]

theorem defaultPingLatest_length_operational_statuses :
    defaultPingLatest.operational_statuses.length = 168 := by
  rw [show defaultPingLatest.operational_statuses = List.replicate 168 none from rfl,
    List.length_replicate]

theorem recUpdatedAt_length_response_times (u : Nat) :
    (recUpdatedAt u).response_times.length = 168 := by
  rw [show (recUpdatedAt u).response_times = List.replicate 168 none from rfl,
    List.length_replicate]

theorem recUpdatedAt_length_response_codes (u : Nat) :
    (recUpdatedAt u).response_codes.length = 168 := by
  rw [show (recUpdatedAt u).response_codes = List.replicate 168 none from rfl,
    List.length_replicate]

theorem recUpdatedAt_length_operational_statuses (u : Nat) :
    (recUpdatedAt u).operational_statuses.length = 168 := by
  rw [show (recUpdatedAt u).operational_statuses = List.replicate 168 none from rfl,
    List.length_replicate]

/-! ### Claim theorems -/

/-- C1: gap filling is exact.  For a record last updated at a timestamp in
hour-of-week `H` and a sample timestamp in hour `H + 3` of the same week,
`set_ping_data` returns slot `H + 3`, nulls exactly slots `H + 1` and
`H + 2`, leaves slot `H` untouched, writes the sample triple at `H + 3`,
and leaves every other slot unchanged. -/
theorem gap_fill_exact_c1 (r : PingLatest) (u dt H : Nat) (rt : Option Int)
    (rc : Int) (op : Bool)
    (hu : r.updated = some u)
    (ht : r.response_times.length = 168) (hc : r.response_codes.length = 168)
    (hs : r.operational_statuses.length = 168)
    (hH : getIndex u = H) (hweek : H + 3 ≤ 167)
    (hhour : dt / 60 = u / 60 + 3) (hge : u ≤ dt) :
    (set_ping_data r dt rt rc op).2 = some (H + 3)
    ∧ ((set_ping_data r dt rt rc op).1.response_times[H + 1]? = some none
        ∧ (set_ping_data r dt rt rc op).1.response_codes[H + 1]? = some none
        ∧ (set_ping_data r dt rt rc op).1.operational_statuses[H + 1]? = some none)
    ∧ ((set_ping_data r dt rt rc op).1.response_times[H + 2]? = some none
        ∧ (set_ping_data r dt rt rc op).1.response_codes[H + 2]? = some none
        ∧ (set_ping_data r dt rt rc op).1.operational_statuses[H + 2]? = some none)
    ∧ ((set_ping_data r dt rt rc op).1.response_times[H]? = r.response_times[H]?
        ∧ (set_ping_data r dt rt rc op).1.response_codes[H]? = r.response_codes[H]?
        ∧ (set_ping_data r dt rt rc op).1.operational_statuses[H]? = r.operational_statuses[H]?)
    ∧ ((set_ping_data r dt rt rc op).1.response_times[H + 3]? = some rt
        ∧ (set_ping_data r dt rt rc op).1.response_codes[H + 3]? = some (some rc)
        ∧ (set_ping_data r dt rt rc op).1.operational_statuses[H + 3]? = some (some op))
    ∧ ∀ j, j ≠ H + 1 → j ≠ H + 2 → j ≠ H + 3 →
        ((set_ping_data r dt rt rc op).1.response_times[j]? = r.response_times[j]?
          ∧ (set_ping_data r dt rt rc op).1.response_codes[j]? = r.response_codes[j]?
          ∧ (set_ping_data r dt rt rc op).1.operational_statuses[j]? = r.operational_statuses[j]?) := by
  have hHmod : u / 60 % 168 = H := by
    rw [← getIndex_eq]
    exact hH
  have hidx : getIndex dt = H + 3 := by
    rw [getIndex_eq]
    omega
  have hmap : ∀ j, j ∈ (gapSteps (u + 60) dt).map getIndex →
      j = H + 1 ∨ j = H + 2 ∨ j = H + 3 := by
    intro j hj
    obtain ⟨t, htm, hjt⟩ := List.mem_map.mp hj
    obtain ⟨k, rfl, hlt⟩ := mem_gapSteps.mp htm
    rw [← hjt, getIndex_eq]
    omega
  have hmem1 : H + 1 ∈ (gapSteps (u + 60) dt).map getIndex := by
    apply List.mem_map.mpr
    refine ⟨u + 60, mem_gapSteps.mpr ⟨0, by omega, by omega⟩, ?_⟩
    rw [getIndex_eq]
    omega
  have hmem2 : H + 2 ∈ (gapSteps (u + 60) dt).map getIndex := by
    apply List.mem_map.mpr
    refine ⟨u + 120, mem_gapSteps.mpr ⟨1, by omega, by omega⟩, ?_⟩
    rw [getIndex_eq]
    omega
  refine ⟨?_, ⟨?_, ?_, ?_⟩, ⟨?_, ?_, ?_⟩, ⟨?_, ?_, ?_⟩, ⟨?_, ?_, ?_⟩, ?_⟩
  · rw [set_ping_data_accepted_snd r u dt rt rc op hu hge, hidx]
  · rw [set_ping_data_getElem_times r u dt rt rc op hu hge ht (H + 1),
      if_neg (by rw [hidx]; omega), if_pos hmem1]
  · rw [set_ping_data_getElem_codes r u dt rt rc op hu hge hc (H + 1),
      if_neg (by rw [hidx]; omega), if_pos hmem1]
  · rw [set_ping_data_getElem_statuses r u dt rt rc op hu hge hs (H + 1),
      if_neg (by rw [hidx]; omega), if_pos hmem1]
  · rw [set_ping_data_getElem_times r u dt rt rc op hu hge ht (H + 2),
      if_neg (by rw [hidx]; omega), if_pos hmem2]
  · rw [set_ping_data_getElem_codes r u dt rt rc op hu hge hc (H + 2),
      if_neg (by rw [hidx]; omega), if_pos hmem2]
  · rw [set_ping_data_getElem_statuses r u dt rt rc op hu hge hs (H + 2),
      if_neg (by rw [hidx]; omega), if_pos hmem2]
  · rw [set_ping_data_getElem_times r u dt rt rc op hu hge ht H,
      if_neg (by rw [hidx]; omega),
      if_neg (fun hm => by rcases hmap H hm with h | h | h <;> omega)]
  · rw [set_ping_data_getElem_codes r u dt rt rc op hu hge hc H,
      if_neg (by rw [hidx]; omega),
      if_neg (fun hm => by rcases hmap H hm with h | h | h <;> omega)]
  · rw [set_ping_data_getElem_statuses r u dt rt rc op hu hge hs H,
      if_neg (by rw [hidx]; omega),
      if_neg (fun hm => by rcases hmap H hm with h | h | h <;> omega)]
  · rw [set_ping_data_getElem_times r u dt rt rc op hu hge ht (H + 3),
      if_pos (by rw [hidx])]
  · rw [set_ping_data_getElem_codes r u dt rt rc op hu hge hc (H + 3),
      if_pos (by rw [hidx])]
  · rw [set_ping_data_getElem_statuses r u dt rt rc op hu hge hs (H + 3),
      if_pos (by rw [hidx])]
  · intro j hj1 hj2 hj3
    refine ⟨?_, ?_, ?_⟩
    · rw [set_ping_data_getElem_times r u dt rt rc op hu hge ht j,
        if_neg (by rw [hidx]; exact hj3),
        if_neg (fun hm => ((hmap j hm).elim hj1 (fun h => h.elim hj2 hj3)))]
    · rw [set_ping_data_getElem_codes r u dt rt rc op hu hge hc j,
        if_neg (by rw [hidx]; exact hj3),
        if_neg (fun hm => ((hmap j hm).elim hj1 (fun h => h.elim hj2 hj3)))]
    · rw [set_ping_data_getElem_statuses r u dt rt rc op hu hge hs j,
        if_neg (by rw [hidx]; exact hj3),
        if_neg (fun hm => ((hmap j hm).elim hj1 (fun h => h.elim hj2 hj3)))]

/-- Witness for C1: a record updated at minute 30 (hour-of-week 0) receiving
a sample at minute 190 (hour-of-week 3) nulls slots 1 and 2, keeps slot 0,
writes slot 3, and leaves slot 7 alone. -/
theorem gap_fill_exact_c1_witness :
    (set_ping_data (recUpdatedAt 30) 190 (some 42) 200 true).2 = some 3
    ∧ (set_ping_data (recUpdatedAt 30) 190 (some 42) 200 true).1.response_times[1]? = some none
    ∧ (set_ping_data (recUpdatedAt 30) 190 (some 42) 200 true).1.response_times[2]? = some none
    ∧ (set_ping_data (recUpdatedAt 30) 190 (some 42) 200 true).1.response_times[0]?
        = (recUpdatedAt 30).response_times[0]?
    ∧ (set_ping_data (recUpdatedAt 30) 190 (some 42) 200 true).1.response_times[3]?
        = some (some 42)
    ∧ (set_ping_data (recUpdatedAt 30) 190 (some 42) 200 true).1.response_codes[3]?
        = some (some 200)
    ∧ (set_ping_data (recUpdatedAt 30) 190 (some 42) 200 true).1.operational_statuses[3]?
        = some (some true)
    ∧ (set_ping_data (recUpdatedAt 30) 190 (some 42) 200 true).1.response_times[7]?
        = (recUpdatedAt 30).response_times[7]? := by
  have h := gap_fill_exact_c1 (recUpdatedAt 30) 30 190 0 (some 42) 200 true rfl
    (recUpdatedAt_length_response_times 30) (recUpdatedAt_length_response_codes 30)
    (recUpdatedAt_length_operational_statuses 30)
    (by decide) (by decide) (by decide) (by decide)
  exact ⟨h.1, h.2.1.1, h.2.2.1.1, h.2.2.2.1.1, h.2.2.2.2.1.1, h.2.2.2.2.1.2.1,
    h.2.2.2.2.1.2.2, (h.2.2.2.2.2 7 (by decide) (by decide) (by decide)).1⟩

/-- C2: when `updated` is set and the incoming timestamp is older, the call
returns the record unchanged with no slot index, and over any sequence of
`set_ping_data` calls the `updated` field stays set and never decreases. -/
theorem stale_sample_dropped_c2 (r : PingLatest) (u dt : Nat) (rt : Option Int)
    (rc : Int) (op : Bool) (hu : r.updated = some u) (hlt : dt < u) :
    set_ping_data r dt rt rc op = (r, none)
    ∧ ∀ samples, (runSamples r samples).updated.isSome = true
        ∧ u ≤ (runSamples r samples).updated.getD u := by
  constructor
  · simp only [set_ping_data, hu]
    rw [if_pos (by omega)]
  · intro samples
    obtain ⟨u2, h2, hle⟩ := runSamples_updated_mono samples r u hu
    rw [h2]
    exact ⟨rfl, hle⟩

/-- Witness for C2: a record updated at time 300 drops a sample at 240
unchanged, and a later accepted sample keeps `updated` set and no smaller. -/
theorem stale_sample_dropped_c2_witness :
    set_ping_data (recUpdatedAt 300) 240 none 200 true = (recUpdatedAt 300, none)
    ∧ (runSamples (recUpdatedAt 300) [(360, some 10, 200, true)]).updated.isSome = true
    ∧ 300 ≤ (runSamples (recUpdatedAt 300) [(360, some 10, 200, true)]).updated.getD 300 := by
  have h := stale_sample_dropped_c2 (recUpdatedAt 300) 300 240 none 200 true rfl (by decide)
  exact ⟨h.1, h.2 [(360, some 10, 200, true)]⟩

/-- C4: `ping_service` reports a flip exactly when the previous
`last_operational_status` was a truthy value (`some true`) and the newly
classified operational status differs from it; a previous status of `none`
or `some false` never reports a flip. -/
theorem flip_detection_asymmetric_c4 (r : PingLatest) (probe : ProbeResult) (now : Nat) :
    (ping_service r probe now).2.2 = true
      ↔ (r.last_operational_status = some true ∧ (classifyProbe probe).2.2 = false) := by
  have h : (ping_service r probe now).2.2
      = flipped r.last_operational_status (classifyProbe probe).2.2 := rfl
  rw [h]
  cases hl : r.last_operational_status with
  | none => simp [flipped]
  | some b => cases b <;> cases hop : (classifyProbe probe).2.2 <;> simp [flipped, hop]

/-- C5: `get_current_data` leaves the arrays unrotated when the slot of
`now` is 167, and otherwise rotates both arrays left by `idx + 1`
(elements `idx+1 .. 167` followed by elements `0 .. idx`), identically for
both arrays. -/
theorem chronological_rotation_c5 (r : PingLatest) (now : Nat)
    (ht : r.response_times.length = 168) (hs : r.operational_statuses.length = 168) :
    (getIndex now = 167 → get_current_data r now = (r.response_times, r.operational_statuses))
    ∧ (getIndex now ≠ 167 →
        get_current_data r now
          = (r.response_times.drop (getIndex now + 1)
               ++ r.response_times.take (getIndex now + 1),
             r.operational_statuses.drop (getIndex now + 1)
               ++ r.operational_statuses.take (getIndex now + 1))) := by
  have htake_t : r.response_times.take 168 = r.response_times := by
    rw [← ht]
    exact List.take_length r.response_times
  have htake_s : r.operational_statuses.take 168 = r.operational_statuses := by
    rw [← hs]
    exact List.take_length r.operational_statuses
  constructor
  · intro h
    simp [get_current_data, h]
  · intro h
    have hne : (getIndex now == 167) = false := by
      simpa using h
    simp only [get_current_data, hne, Bool.false_eq_true, if_false]
    rw [htake_t, htake_s]

/-- Witness for C5: on a fresh record at time 0 (slot 0), both arrays are
rotated left by 1. -/
theorem chronological_rotation_c5_witness :
    get_current_data defaultPingLatest 0
      = (defaultPingLatest.response_times.drop (getIndex 0 + 1)
           ++ defaultPingLatest.response_times.take (getIndex 0 + 1),
         defaultPingLatest.operational_statuses.drop (getIndex 0 + 1)
           ++ defaultPingLatest.operational_statuses.take (getIndex 0 + 1)) :=
  (chronological_rotation_c5 defaultPingLatest 0 defaultPingLatest_length_response_times
    defaultPingLatest_length_operational_statuses).2 (by decide)

/-- C6: a successful probe is classified operational exactly when the
response code is 200 or 400, and that classification is what lands in
`last_operational_status`. -/
theorem classification_rule_c6 (r : PingLatest) (now : Nat) (t c : Int) :
    ((classifyProbe (.success t c)).2.2 = true ↔ (c = 200 ∨ c = 400))
    ∧ (r.updated = none →
        (ping_service r (.success t c) now).1.last_operational_status
          = some ((classifyProbe (.success t c)).2.2)) := by
  constructor
  · simp [classifyProbe]
  · intro hu
    simp only [ping_service, set_ping_data, hu]
    rfl

/-- Witness for C6: response code 201 on a fresh record is classified
non-operational and recorded as such. -/
theorem classification_rule_c6_witness :
    ((classifyProbe (.success 50 201)).2.2 = true ↔ ((201 : Int) = 200 ∨ (201 : Int) = 400))
    ∧ (ping_service defaultPingLatest (.success 50 201) 5).1.last_operational_status
        = some ((classifyProbe (.success 50 201)).2.2) := by
  have h := classification_rule_c6 defaultPingLatest 5 50 201
  exact ⟨h.1, h.2 rfl⟩

set_option maxRecDepth 20000 in
/-- C3 counterexample: the all-absent-or-all-present triple invariant is NOT
preserved by `set_ping_data` for the failed-probe sample.  On a fresh record
(which satisfies the invariant), recording `(None, -1, False)` leaves the
written slot with an absent response time but a present response code and
operational status. -/
theorem triple_invariant_cex_c3 :
    tripleInv defaultPingLatest
    ∧ ¬ tripleInv (set_ping_data defaultPingLatest 0 none (-1) false).1 := by
  constructor
  · decide
  · decide

/-- C3 amended: `set_ping_data` preserves the weaker invariant that response
codes and operational statuses are present together and a present response
time forces the rest; the full triple invariant is preserved whenever the
sample carries a present response time (every successful probe). -/
theorem triple_invariant_amended_c3 (r : PingLatest) (dt : Nat) (rt : Option Int)
    (rc : Int) (op : Bool)
    (ht : r.response_times.length = 168) (hc : r.response_codes.length = 168)
    (hs : r.operational_statuses.length = 168) :
    (pairInv r → pairInv (set_ping_data r dt rt rc op).1)
    ∧ (rt.isSome = true → tripleInv r → tripleInv (set_ping_data r dt rt rc op).1) := by
  have hpoint : ∀ j, j < 168 →
      ((set_ping_data r dt rt rc op).1.response_times[j]? = some rt
        ∧ (set_ping_data r dt rt rc op).1.response_codes[j]? = some (some rc)
        ∧ (set_ping_data r dt rt rc op).1.operational_statuses[j]? = some (some op))
      ∨ ((set_ping_data r dt rt rc op).1.response_times[j]? = some none
        ∧ (set_ping_data r dt rt rc op).1.response_codes[j]? = some none
        ∧ (set_ping_data r dt rt rc op).1.operational_statuses[j]? = some none)
      ∨ ((set_ping_data r dt rt rc op).1.response_times[j]? = r.response_times[j]?
        ∧ (set_ping_data r dt rt rc op).1.response_codes[j]? = r.response_codes[j]?
        ∧ (set_ping_data r dt rt rc op).1.operational_statuses[j]? = r.operational_statuses[j]?) := by
    intro j hj
    cases hu : r.updated with
    | none =>
      rw [set_ping_data_fresh r dt rt rc op hu]
      by_cases hje : j = getIndex dt
      · subst hje
        left
        refine ⟨?_, ?_, ?_⟩
        · exact List.getElem?_set_self (by rw [ht]; exact getIndex_lt dt)
        · exact List.getElem?_set_self (by rw [hc]; exact getIndex_lt dt)
        · exact List.getElem?_set_self (by rw [hs]; exact getIndex_lt dt)
      · right; right
        refine ⟨?_, ?_, ?_⟩ <;>
          exact List.getElem?_set_ne (fun he => hje he.symm)
    | some u =>
      by_cases hle : u ≤ dt
      · by_cases hje : j = getIndex dt
        · left
          refine ⟨?_, ?_, ?_⟩
          · rw [set_ping_data_getElem_times r u dt rt rc op hu hle ht j, if_pos hje]
          · rw [set_ping_data_getElem_codes r u dt rt rc op hu hle hc j, if_pos hje]
          · rw [set_ping_data_getElem_statuses r u dt rt rc op hu hle hs j, if_pos hje]
        · by_cases hmm : j ∈ (gapSteps (u + 60) dt).map getIndex
          · right; left
            refine ⟨?_, ?_, ?_⟩
            · rw [set_ping_data_getElem_times r u dt rt rc op hu hle ht j,
                if_neg hje, if_pos hmm]
            · rw [set_ping_data_getElem_codes r u dt rt rc op hu hle hc j,
                if_neg hje, if_pos hmm]
            · rw [set_ping_data_getElem_statuses r u dt rt rc op hu hle hs j,
                if_neg hje, if_pos hmm]
          · right; right
            refine ⟨?_, ?_, ?_⟩
            · rw [set_ping_data_getElem_times r u dt rt rc op hu hle ht j,
                if_neg hje, if_neg hmm]
            · rw [set_ping_data_getElem_codes r u dt rt rc op hu hle hc j,
                if_neg hje, if_neg hmm]
            · rw [set_ping_data_getElem_statuses r u dt rt rc op hu hle hs j,
                if_neg hje, if_neg hmm]
      · right; right
        rw [set_ping_data_rejected r u dt rt rc op hu (by omega)]
        exact ⟨rfl, rfl, rfl⟩
  constructor
  · intro hpair i hi
    rcases hpoint i hi with ⟨h1, h2, h3⟩ | ⟨h1, h2, h3⟩ | ⟨h1, h2, h3⟩
    · rw [h1, h2, h3]
      simp [pairOk]
    · rw [h1, h2, h3]
      rfl
    · rw [h1, h2, h3]
      exact hpair i hi
  · intro hrt htri i hi
    obtain ⟨x, rfl⟩ := Option.isSome_iff_exists.mp hrt
    rcases hpoint i hi with ⟨h1, h2, h3⟩ | ⟨h1, h2, h3⟩ | ⟨h1, h2, h3⟩
    · rw [h1, h2, h3]
      rfl
    · rw [h1, h2, h3]
      rfl
    · rw [h1, h2, h3]
      exact htri i hi

set_option maxRecDepth 20000 in
/-- Witness for C3 (amended): a successful sample on a fresh record keeps
both invariants. -/
theorem triple_invariant_amended_c3_witness :
    pairInv (set_ping_data defaultPingLatest 7 (some 5) 200 true).1
    ∧ tripleInv (set_ping_data defaultPingLatest 7 (some 5) 200 true).1 := by
  have h := triple_invariant_amended_c3 defaultPingLatest 7 (some 5) 200 true
    defaultPingLatest_length_response_times defaultPingLatest_length_response_codes
    defaultPingLatest_length_operational_statuses
  exact ⟨h.1 (by decide), h.2 rfl (by decide)⟩

/-- C7: a caught probe exception is converted into the failed sample
`(None, -1, False)`, and (whenever the sample is not stale) that sample is
what gets recorded in the latest fields and in the slot of `now`. -/
theorem probe_failure_conversion_c7 (r : PingLatest) (now : Nat)
    (hfresh : ∀ u, r.updated = some u → u ≤ now)
    (ht : r.response_times.length = 168) (hc : r.response_codes.length = 168)
    (hs : r.operational_statuses.length = 168) :
    classifyProbe .failure = (none, -1, false)
    ∧ (ping_service r .failure now).1.last_response_time = none
    ∧ (ping_service r .failure now).1.last_response_code = some (-1)
    ∧ (ping_service r .failure now).1.last_operational_status = some false
    ∧ (ping_service r .failure now).1.response_times[getIndex now]? = some none
    ∧ (ping_service r .failure now).1.response_codes[getIndex now]? = some (some (-1))
    ∧ (ping_service r .failure now).1.operational_statuses[getIndex now]?
        = some (some false) := by
  have key : (set_ping_data r now none (-1) false).1.last_response_time = none
      ∧ (set_ping_data r now none (-1) false).1.last_response_code = some (-1)
      ∧ (set_ping_data r now none (-1) false).1.last_operational_status = some false
      ∧ (set_ping_data r now none (-1) false).1.response_times[getIndex now]? = some none
      ∧ (set_ping_data r now none (-1) false).1.response_codes[getIndex now]?
          = some (some (-1))
      ∧ (set_ping_data r now none (-1) false).1.operational_statuses[getIndex now]?
          = some (some false) := by
    cases hu : r.updated with
    | none =>
      rw [set_ping_data_fresh r now none (-1) false hu]
      refine ⟨rfl, rfl, rfl, ?_, ?_, ?_⟩
      · exact List.getElem?_set_self (by rw [ht]; exact getIndex_lt now)
      · exact List.getElem?_set_self (by rw [hc]; exact getIndex_lt now)
      · exact List.getElem?_set_self (by rw [hs]; exact getIndex_lt now)
    | some u =>
      have hle := hfresh u hu
      have hsc := set_ping_data_accepted_scalars r u now none (-1) false hu hle
      refine ⟨hsc.2.1, hsc.2.2.1, hsc.2.2.2.1, ?_, ?_, ?_⟩
      · rw [set_ping_data_getElem_times r u now none (-1) false hu hle ht (getIndex now),
          if_pos rfl]
      · rw [set_ping_data_getElem_codes r u now none (-1) false hu hle hc (getIndex now),
          if_pos rfl]
      · rw [set_ping_data_getElem_statuses r u now none (-1) false hu hle hs (getIndex now),
          if_pos rfl]
  exact ⟨rfl, key.1, key.2.1, key.2.2.1, key.2.2.2.1, key.2.2.2.2.1, key.2.2.2.2.2⟩

/-- Witness for C7: a failed probe on a fresh record at minute 120 records
`(None, -1, False)` in the latest fields and in slot 2. -/
theorem probe_failure_conversion_c7_witness :
    classifyProbe .failure = (none, -1, false)
    ∧ (ping_service defaultPingLatest .failure 120).1.last_response_time = none
    ∧ (ping_service defaultPingLatest .failure 120).1.last_response_code = some (-1)
    ∧ (ping_service defaultPingLatest .failure 120).1.last_operational_status = some false
    ∧ (ping_service defaultPingLatest .failure 120).1.response_times[getIndex 120]? = some none
    ∧ (ping_service defaultPingLatest .failure 120).1.response_codes[getIndex 120]?
        = some (some (-1))
    ∧ (ping_service defaultPingLatest .failure 120).1.operational_statuses[getIndex 120]?
        = some (some false) :=
  probe_failure_conversion_c7 defaultPingLatest 120 (fun _ h => nomatch h)
    defaultPingLatest_length_response_times defaultPingLatest_length_response_codes
    defaultPingLatest_length_operational_statuses

/-- C8 counterexample: `last_good_time` is NOT set only-if the most recent
sample was operational.  After an operational sample at minute 100 followed
by a non-operational sample at minute 200, the most recent sample is
non-operational yet `last_good_time` is still set (to 100). -/
theorem last_good_time_iff_cex_c8 :
    (set_ping_data (set_ping_data defaultPingLatest 100 (some 5) 200 true).1
        200 none (-1) false).1.last_operational_status = some false
    ∧ (set_ping_data (set_ping_data defaultPingLatest 100 (some 5) 200 true).1
        200 none (-1) false).1.last_good_time = some 100 := by
  constructor
  · rfl
  · rfl

/-- C8 amended: an accepted `set_ping_data` call sets `last_good_time = dt`
exactly when the new sample is operational and leaves it untouched
otherwise; hence `last_good_time` is set whenever the most recent sample was
operational, but it can remain set from an earlier good sample after a
non-operational one. -/
theorem last_good_time_amended_c8 (r : PingLatest) (dt : Nat) (rt : Option Int)
    (rc : Int) (op : Bool)
    (hacc : ∀ u, r.updated = some u → u ≤ dt) :
    (op = true → (set_ping_data r dt rt rc op).1.last_good_time = some dt)
    ∧ (op = false → (set_ping_data r dt rt rc op).1.last_good_time = r.last_good_time) := by
  have key : (set_ping_data r dt rt rc op).1.last_good_time
      = (if op then some dt else r.last_good_time) := by
    cases hu : r.updated with
    | none =>
      rw [set_ping_data_fresh r dt rt rc op hu]
      rfl
    | some u =>
      exact (set_ping_data_accepted_scalars r u dt rt rc op hu (hacc u hu)).2.2.2.2
  constructor
  · intro hop
    rw [key, hop, if_pos rfl]
  · intro hop
    rw [key, hop]
    simp

/-- Witness for C8 (amended): on a fresh record, an operational sample at
minute 100 sets `last_good_time = 100`; a non-operational one leaves it
unset. -/
theorem last_good_time_amended_c8_witness :
    (set_ping_data defaultPingLatest 100 (some 1) 200 true).1.last_good_time = some 100
    ∧ (set_ping_data defaultPingLatest 100 (some 1) 200 false).1.last_good_time = none := by
  have h1 := last_good_time_amended_c8 defaultPingLatest 100 (some 1) 200 true
    (fun u h => nomatch h)
  have h2 := last_good_time_amended_c8 defaultPingLatest 100 (some 1) 200 false
    (fun u h => nomatch h)
  exact ⟨h1.1 rfl, h2.2 rfl⟩

/-- C9 counterexample: the gap-filling walk is NOT capped at 168 iterations.
For a record updated at minute 0 and a sample 200 hours later (minute
12000), the loop started at `updated + 1 hour` runs 199 times. -/
theorem gap_walk_iterations_cex_c9 :
    168 < (gapSteps (0 + 60) 12000).length := by
  rw [length_gapSteps]
  decide

/-- C9 amended: the walk always terminates and performs
`⌈(dt - (updated + 60)) / 60⌉` iterations — a number that grows with the
gap and is not capped at 168 — but the slots it nulls are at most 168
distinct slots, so a gap longer than one week merely overwrites slots more
than once. -/
theorem gap_walk_bounded_c9 (u dt : Nat) :
    (gapSteps (u + 60) dt).length = (dt - (u + 60) + 59) / 60
    ∧ ((gapSteps (u + 60) dt).map getIndex).toFinset.card ≤ 168 := by
  constructor
  · exact length_gapSteps (u + 60) dt
  · have hsub : ((gapSteps (u + 60) dt).map getIndex).toFinset ⊆ Finset.range 168 := by
      intro x hx
      rw [List.mem_toFinset] at hx
      obtain ⟨t, _, hxt⟩ := List.mem_map.mp hx
      rw [Finset.mem_range, ← hxt]
      exact getIndex_lt t
    calc ((gapSteps (u + 60) dt).map getIndex).toFinset.card
        ≤ (Finset.range 168).card := Finset.card_le_card hsub
      _ = 168 := Finset.card_range 168

/-- C10: on a stale cycle (`now < updated`), `set_ping_data` returns no slot
index and mutates nothing, yet `ping_service` still reports
`is_new_slot = true` (the previous index, which is set, differs from `none`)
and a flip flag computed from the freshly classified—but unrecorded—sample. -/
theorem stale_cycle_flags_c10 (r : PingLatest) (u now : Nat) (probe : ProbeResult)
    (hu : r.updated = some u) (hlt : now < u) :
    ping_service r probe now
      = (r, true, flipped r.last_operational_status (classifyProbe probe).2.2)
    ∧ (set_ping_data r now (classifyProbe probe).1 (classifyProbe probe).2.1
        (classifyProbe probe).2.2).2 = none := by
  have hrej := set_ping_data_rejected r u now (classifyProbe probe).1
    (classifyProbe probe).2.1 (classifyProbe probe).2.2 hu hlt
  have hps : ping_service r probe now
      = ((set_ping_data r now (classifyProbe probe).1 (classifyProbe probe).2.1
            (classifyProbe probe).2.2).1,
         decide (get_index r.updated
            ≠ (set_ping_data r now (classifyProbe probe).1 (classifyProbe probe).2.1
                (classifyProbe probe).2.2).2),
         flipped r.last_operational_status (classifyProbe probe).2.2) := rfl
  rw [hps, hrej]
  constructor
  · rw [hu]
    simp [get_index]
  · rfl

/-- Witness for C10: a record updated at minute 300 (operational) receiving
a failed-probe cycle at minute 240 is unchanged, yet the cycle reports
`is_new_slot = true` and `flipped = true`. -/
theorem stale_cycle_flags_c10_witness :
    ping_service staleRecord .failure 240 = (staleRecord, true, true)
    ∧ (set_ping_data staleRecord 240 none (-1) false).2 = none := by
  have h := stale_cycle_flags_c10 staleRecord 300 240 .failure rfl (by decide)
  exact ⟨h.1, h.2⟩

end Catalog
